import Mathlib

/-!
Shallow embedding of the JMAP PARA folder-management scripts
(jmap_common.py, jmap_file_email.py, jmap_archive_folder.py,
jmap_create_folder.py) and proofs about their folder-resolution and
mutation logic.

Server responses are modelled as explicit values passed to the functions
that interpret them; requests issued by an operation are modelled as an
explicit request list so that read/write traffic is visible in the model.
-/

/-- A mailbox (folder) record, as normalized by `JMAPClient.get_mailboxes`:
the jmapc object is converted to a plain mapping with these fields. -/
structure Mailbox where
  id : String
  name : String
  role : Option String := none
  sortOrder : Int := 0
  parentId : Option String := none
  totalEmails : Nat := 0
  unreadEmails : Nat := 0
  totalThreads : Nat := 0
  unreadThreads : Nat := 0
deriving DecidableEq

namespace jmap_common

/-- `JMAPClient.get_mailbox_by_name`: loop over the mailbox list returning
the first mailbox whose lowercased name equals the lowercased query. -/
def get_mailbox_by_name (mailboxes : List Mailbox) (name : String) : Option Mailbox :=
  match mailboxes with
  | [] => none
  | mailbox :: rest =>
    if mailbox.name.toLower = name.toLower then some mailbox
    else get_mailbox_by_name rest name

end jmap_common

/-- The three PARA parent ids discovered by the `para_parents` dict in
`find_folder_in_para` (both variants): one slot per fixed key. -/
structure ParaParents where
  projects : Option String
  areas : Option String
  resources : Option String
deriving DecidableEq

/-- The `for mb in all_mailboxes: if mb['name'] in para_parents:
para_parents[mb['name']] = mb['id']` loop, shared verbatim by
jmap_file_email.find_folder_in_para and
jmap_archive_folder.find_folder_in_para. Dict assignment means a later
match overwrites an earlier one. -/
def paraStep (acc : ParaParents) (mb : Mailbox) : ParaParents :=
  if mb.name = "100_projects" then { acc with projects := some mb.id }
  else if mb.name = "200_areas" then { acc with areas := some mb.id }
  else if mb.name = "300_resources" then { acc with resources := some mb.id }
  else acc

/-- The dict after the discovery loop: fold `paraStep` over the list. -/
def find_para_parents (mbs : List Mailbox) : ParaParents :=
  mbs.foldl paraStep ⟨none, none, none⟩

/-- The id of the last folder in list order bearing exactly the given
name: the characterization of the discovery loop proved below. -/
def lastIdNamed (mbs : List Mailbox) (n : String) : Option String :=
  (mbs.reverse.find? (fun mb => decide (mb.name = n))).map Mailbox.id

/-- PARA-root discovery as the spec words it for a refinement comparison:
first match in list order for each of the three fixed root names. -/
def find_para_parents_first_match (mbs : List Mailbox) : ParaParents :=
  ⟨(mbs.find? (fun mb => decide (mb.name = "100_projects"))).map Mailbox.id,
   (mbs.find? (fun mb => decide (mb.name = "200_areas"))).map Mailbox.id,
   (mbs.find? (fun mb => decide (mb.name = "300_resources"))).map Mailbox.id⟩

/-- A folder found in the PARA structure: the mailbox record together with
the `paraParent` / `paraParentId` keys the search adds to it. -/
structure ParaHit where
  mb : Mailbox
  paraParent : String
  paraParentId : String
deriving DecidableEq

namespace jmap_file_email

/-- Outcome of the recursive search. `outOfFuel` marks an execution whose
Python counterpart is still recursing (the source has no depth guard, so
the Lean model indexes the recursion by fuel). -/
inductive SearchOut where
  | found (hit : ParaHit)
  | notFound
  | outOfFuel
deriving DecidableEq

/-- The `if max_depth is not None and current_depth > max_depth` guard of
`search_descendants`. -/
def depthExceeded (maxDepth : Option Nat) (currentDepth : Nat) : Bool :=
  match maxDepth with
  | some md => decide (currentDepth > md)
  | none => false

/-- `search_descendants(parent_id, current_depth, para_name)` from
jmap_file_email.find_folder_in_para, with explicit recursion fuel. The
inner `for mb in all_mailboxes` loop with early return is the foldr: the
first mailbox (in list order) whose `parentId` matches is examined first;
a found result or an exhausted recursion short-circuits the rest. -/
def search_descendants (mbs : List Mailbox) (folderName : String)
    (maxDepth : Option Nat) (paraName : String) (paraId : String) :
    Nat → String → Nat → SearchOut
  | 0, _, _ => .outOfFuel
  | fuel + 1, parentId, currentDepth =>
    if depthExceeded maxDepth currentDepth then .notFound
    else
      mbs.foldr
        (fun mb acc =>
          if mb.parentId = some parentId then
            if mb.name = folderName then .found ⟨mb, paraName, paraId⟩
            else
              match search_descendants mbs folderName maxDepth paraName paraId
                  fuel mb.id (currentDepth + 1) with
              | .notFound => acc
              | r => r
          else acc)
        .notFound

/-- `find_folder_in_para(client, folder_name, max_depth)` from
jmap_file_email.py: discover the PARA parents, then search each one's
descendants starting at depth 1, in the fixed dict-key order
100_projects, 200_areas, 300_resources, returning the first hit. The
fuel `mbs.length + 1` covers any acyclic parent chain; on cyclic input
the model reports `outOfFuel` where Python recurses forever. -/
def find_folder_in_para (mbs : List Mailbox) (folderName : String)
    (maxDepth : Option Nat) : SearchOut :=
  let pp := find_para_parents mbs
  let fuel := mbs.length + 1
  let tryRoot : String → Option String → SearchOut → SearchOut :=
    fun paraName pid k =>
      match pid with
      | none => k
      | some pid =>
        match search_descendants mbs folderName maxDepth paraName pid fuel pid 1 with
        | .notFound => k
        | r => r
  tryRoot "100_projects" pp.projects
    (tryRoot "200_areas" pp.areas
      (tryRoot "300_resources" pp.resources .notFound))

/-- An email's `mailboxIds` mapping (folder id → boolean membership), as a
Python dict: an association list whose keys are unique in well-formed
server data. -/
abbrev MailboxIds := List (String × Bool)

/-- Python `d[k] = v` on a dict: overwrite the value at an existing key,
otherwise append the new key at the end (dicts preserve insertion order). -/
def dictSet (d : MailboxIds) (k : String) (v : Bool) : MailboxIds :=
  if d.any (fun p => p.1 = k) then
    d.map (fun p => if p.1 = k then (k, v) else p)
  else d ++ [(k, v)]

/-- Python `d.get(k)` on a dict. -/
def dictGet (d : MailboxIds) (k : String) : Option Bool :=
  (d.find? (fun p => p.1 = k)).map Prod.snd

/-- A JMAP request issued by `file_email`: either the `EmailGet` read that
`get_email_info` performs, or the `EmailSet` update carrying the new
`mailboxIds`. -/
inductive Req where
  | emailGet (emailId : String)
  | emailSet (emailId : String) (mailboxIds : MailboxIds)
deriving DecidableEq

/-- `file_email(client, email_id, target_mailbox_id, copy)` from
jmap_file_email.py, modelled as the sequence of JMAP requests it issues.
`current` is the `mailboxIds` the server would return for the email's
`EmailGet` (only consulted on the copy path, which calls
`get_email_info`); the move path builds `{target_mailbox_id: True}`
directly and issues no read. -/
def file_email (current : MailboxIds) (emailId targetMailboxId : String)
    (copy : Bool) : List Req :=
  if copy then
    [Req.emailGet emailId,
     Req.emailSet emailId (dictSet current targetMailboxId true)]
  else
    [Req.emailSet emailId [(targetMailboxId, true)]]

/-- Number of read (`EmailGet`) requests in a request list. -/
def readCount (reqs : List Req) : Nat :=
  (reqs.filter (fun r => match r with | Req.emailGet _ => true | _ => false)).length

/-- The `mailboxIds` submitted by the (single) `EmailSet` in a request
list, if any. -/
def submittedMailboxIds (reqs : List Req) : Option MailboxIds :=
  reqs.foldr
    (fun r acc => match r with
      | Req.emailSet _ m => some m
      | _ => acc)
    none

end jmap_file_email

/-- Python truthiness of an optional collection attribute:
`hasattr(result, f) and result.f` — absent (`none`) or empty is falsy. -/
def truthyList {α : Type} : Option (List α) → Bool
  | none => false
  | some l => !l.isEmpty

/-- Python `d.get(k)` on a string-keyed mapping (e.g. `not_updated`,
`created`): first entry with the key, if any. -/
def lookupStr (d : List (String × String)) (k : String) : Option String :=
  (d.find? (fun p => decide (p.1 = k))).map Prod.snd

/-- A `MailboxSet`/`EmailSet` update response as the scripts inspect it:
the (possibly absent) `updated` id collection and `not_updated`
id → error-detail mapping. -/
structure SetUpdateResponse where
  updated : Option (List String)
  not_updated : Option (List (String × String))
deriving DecidableEq

namespace jmap_archive_folder

/-- The bounded-depth `find_folder_in_para(client, folder_name)` from
jmap_archive_folder.py: discover the PARA parents, then, per PARA root in
fixed dict-key order, scan the whole mailbox list for the first mailbox
that is an immediate child of that root and has the exact name. -/
def find_folder_in_para (mbs : List Mailbox) (folderName : String) :
    Option ParaHit :=
  let pp := find_para_parents mbs
  let tryRoot : String → Option String → Option ParaHit → Option ParaHit :=
    fun paraName pid k =>
      match pid with
      | none => k
      | some pid =>
        match mbs.find? (fun mb => decide (mb.parentId = some pid ∧ mb.name = folderName)) with
        | some mb => some ⟨mb, paraName, pid⟩
        | none => k
  tryRoot "100_projects" pp.projects
    (tryRoot "200_areas" pp.areas
      (tryRoot "300_resources" pp.resources none))

/-- Outcome of `move_folder_to_archive`: returning True, raising the
move-failure ValueError (with the `not_updated.get(folder_id, {})`
detail, `none` standing for the `{}` default), or raising the
unexpected-response ValueError. -/
inductive MoveOutcome where
  | success
  | moveFailure (detail : Option String)
  | unexpected
deriving DecidableEq

/-- `move_folder_to_archive(client, folder_id, archive_parent_id)` from
jmap_archive_folder.py, as the interpretation of the server's
`MailboxSet` update response: the `not_updated` truthiness check comes
first and fires on any non-empty `not_updated`, then the `updated`
membership check, then the unexpected-response fallback. -/
def move_folder_to_archive (resp : SetUpdateResponse) (folderId : String) :
    MoveOutcome :=
  if truthyList resp.not_updated then
    .moveFailure (lookupStr (resp.not_updated.getD []) folderId)
  else if truthyList resp.updated then
    if folderId ∈ resp.updated.getD [] then .success else .unexpected
  else .unexpected

/-- The response interpretation as the spec claim words it, for a
refinement comparison: the `updated` membership check decides success
first, then a move failure requires `not_updated` to hold an entry for
this very folder id, and anything else is unexpected. -/
def move_outcome_per_claim (resp : SetUpdateResponse) (folderId : String) :
    MoveOutcome :=
  if folderId ∈ resp.updated.getD [] then .success
  else if (resp.not_updated.getD []).any (fun p => decide (p.1 = folderId)) then
    .moveFailure (lookupStr (resp.not_updated.getD []) folderId)
  else .unexpected

end jmap_archive_folder

/-- A `MailboxSet` create response as `create_folder` inspects it:
`created` maps the client-chosen creation key to the server-assigned id,
`not_created` maps it to error detail. -/
structure SetCreateResponse where
  created : Option (List (String × String))
  not_created : Option (List (String × String))
deriving DecidableEq

namespace jmap_create_folder

/-- Outcome of `create_folder`: the returned `{id, name, parentId}`
mapping, the creation-failure ValueError (detail `none` standing for the
`{}` default), or the unexpected-response ValueError. -/
inductive CreateOutcome where
  | ok (id name parentId : String)
  | createFailure (detail : Option String)
  | unexpected
deriving DecidableEq

/-- `create_folder(client, parent_id, folder_name)` from
jmap_create_folder.py: check `not_created` truthiness first, then pull
the record created under the fixed key `new-folder` and return its
assigned id together with the name and parent id taken from the
arguments; any other shape is the unexpected-response failure. -/
def create_folder (resp : SetCreateResponse) (parentId folderName : String) :
    CreateOutcome :=
  if truthyList resp.not_created then
    .createFailure (lookupStr (resp.not_created.getD []) "new-folder")
  else if truthyList resp.created then
    match lookupStr (resp.created.getD []) "new-folder" with
    | some newId => .ok newId folderName parentId
    | none => .unexpected
  else .unexpected

/-- Modelled from the spec: the remote server's state change on a
successful folder creation is not part of src/ (the server is an
external collaborator); per §4.3 the request "requests creation of a new
folder with given parent and name" and the created record carries the
assigned id, so afterwards the account's folder list additionally
contains a folder with that id, name and parent. -/
def serverApplyCreate (mbs : List Mailbox) (newId name parentId : String) :
    List Mailbox :=
  mbs ++ [{ id := newId, name := name, parentId := some parentId }]

end jmap_create_folder

/-- Test fixture: the pure chain 100_projects → A → B → C with arbitrary
ids and names, the folder-list family of the depth-accounting claim. -/
def chainMbs (r a b c nA nB nC : String) : List Mailbox :=
  [{ id := r, name := "100_projects" },
   { id := a, name := nA, parentId := some r },
   { id := b, name := nB, parentId := some a },
   { id := c, name := nC, parentId := some b }]

/-- Test fixture: corrupted input in which the PARA root sits on a
`parentId` cycle, so the recursive search revisits it forever. -/
def cyclicMbs : List Mailbox :=
  [{ id := "r", name := "100_projects", parentId := some "c" },
   { id := "c", name := "X", parentId := some "r" }]

/-! ## Helper lemmas and claim theorems -/


namespace jmap_file_email

lemma map_fix_eq_self (f : String × Bool → String × Bool) (l : MailboxIds)
    (h : ∀ x ∈ l, f x = x) : l.map f = l := by
  induction l with
  | nil => rfl
  | cons p rest ih =>
    simp only [List.map_cons, h p (List.mem_cons_self _ _)]
    rw [ih (fun x hx => h x (List.mem_cons_of_mem _ hx))]

lemma dictSet_eq_self (d : MailboxIds) (k : String)
    (hnodup : (d.map Prod.fst).Nodup)
    (h : dictGet d k = some true) : dictSet d k true = d := by
  induction d with
  | nil => simp [dictGet] at h
  | cons p rest ih =>
    by_cases hpk : p.1 = k
    · have hfind : List.find? (fun q => decide (q.1 = k)) (p :: rest) = some p :=
        List.find?_cons_of_pos _ (by simp [hpk])
      have hp2 : p.2 = true := by
        unfold dictGet at h
        rw [hfind] at h
        simpa using h
      have hkeys : ∀ q ∈ rest, ¬(q.1 = k) := by
        simp only [List.map_cons, List.nodup_cons, List.mem_map] at hnodup
        intro q hq hqk
        exact hnodup.1 ⟨q, hq, by rw [hqk, ← hpk]⟩
      have hanyc : (p :: rest).any (fun q => decide (q.1 = k)) = true := by
        simp [hpk]
      unfold dictSet
      rw [if_pos hanyc]
      simp only [List.map_cons, if_pos hpk]
      rw [map_fix_eq_self _ rest (fun q hq => by simp [hkeys q hq])]
      have hpe : p = (k, true) := Prod.ext hpk hp2
      rw [← hpe]
    · have hskip : List.find? (fun q => decide (q.1 = k)) (p :: rest) =
          List.find? (fun q => decide (q.1 = k)) rest :=
        List.find?_cons_of_neg _ (by simp [hpk])
      have hrest : dictGet rest k = some true := by
        unfold dictGet at h ⊢
        rwa [hskip] at h
      obtain ⟨q, hq⟩ : ∃ q, List.find? (fun q => decide (q.1 = k)) rest = some q := by
        cases hfq : List.find? (fun q => decide (q.1 = k)) rest with
        | none => unfold dictGet at hrest; rw [hfq] at hrest; simp at hrest
        | some q => exact ⟨q, rfl⟩
      have hany : rest.any (fun q => decide (q.1 = k)) = true :=
        List.any_eq_true.mpr ⟨q, List.mem_of_find?_eq_some hq, by
          simpa using List.find?_some hq⟩
      have hnr : (rest.map Prod.fst).Nodup := by
        simp only [List.map_cons, List.nodup_cons] at hnodup
        exact hnodup.2
      have hih := ih hnr hrest
      have hmapr : rest.map (fun q => if q.1 = k then (k, true) else q) = rest := by
        unfold dictSet at hih
        rwa [if_pos hany] at hih
      have hanyc : (p :: rest).any (fun q => decide (q.1 = k)) = true := by
        simp [hany]
      unfold dictSet
      rw [if_pos hanyc]
      simp only [List.map_cons, if_neg hpk]
      rw [hmapr]

end jmap_file_email

open jmap_file_email in
/-- C1: `file_email` with `copy=False` issues exactly one request, the
`EmailSet` update carrying `{target_mailbox_id: True}` as the complete
new `mailboxIds` (so the email leaves every folder it was in), and it
issues no `EmailGet` read of the current membership, whatever the
email's current `mailboxIds` are. -/
theorem fileEmail_move_replaces_mailboxIds (current : MailboxIds)
    (emailId targetFolderId : String) :
    file_email current emailId targetFolderId false =
      [Req.emailSet emailId [(targetFolderId, true)]] ∧
    readCount (file_email current emailId targetFolderId false) = 0 ∧
    submittedMailboxIds (file_email current emailId targetFolderId false) =
      some [(targetFolderId, true)] ∧
    ∀ f : String, dictGet [(targetFolderId, true)] f = some true ↔ f = targetFolderId := by
  refine ⟨rfl, rfl, rfl, fun f => ?_⟩
  by_cases h : targetFolderId = f
  · subst h
    simp [dictGet, List.find?]
  · simp [dictGet, List.find?, h, Ne.symm h]

open jmap_file_email in
/-- C4: `file_email` with `copy=True` first issues the `EmailGet` read of
`get_email_info`, then the `EmailSet` whose `mailboxIds` is the current
set with the target added; on an email in `{X: true}` with `X ≠ Z` the
submitted set is `{X: true, Z: true}` exactly, and the copy path issues
exactly one more read request than the move path. -/
theorem fileEmail_copy_adds_target (current : MailboxIds) (emailId X Z : String)
    (hXZ : X ≠ Z) :
    file_email current emailId Z true =
      [Req.emailGet emailId, Req.emailSet emailId (dictSet current Z true)] ∧
    dictSet [(X, true)] Z true = [(X, true), (Z, true)] ∧
    submittedMailboxIds (file_email [(X, true)] emailId Z true) =
      some [(X, true), (Z, true)] ∧
    readCount (file_email current emailId Z true) =
      readCount (file_email current emailId Z false) + 1 := by
  have hset : dictSet [(X, true)] Z true = [(X, true), (Z, true)] := by
    unfold dictSet
    rw [if_neg (by simp [hXZ])]
    rfl
  exact ⟨rfl, hset, by simp [submittedMailboxIds, file_email, hset], rfl⟩

open jmap_file_email in
/-- C10: copying into a folder the email already belongs to changes
nothing: when the current `mailboxIds` (a dict, so its keys are unique)
already map the target id to `True`, the copy path submits exactly the
email's current set. -/
theorem fileEmail_copy_idempotent (current : MailboxIds) (emailId targetId : String)
    (hnodup : (current.map Prod.fst).Nodup)
    (hmem : dictGet current targetId = some true) :
    file_email current emailId targetId true =
      [Req.emailGet emailId, Req.emailSet emailId current] ∧
    submittedMailboxIds (file_email current emailId targetId true) = some current := by
  have h := dictSet_eq_self current targetId hnodup hmem
  exact ⟨by simp [file_email, h], by simp [file_email, submittedMailboxIds, h]⟩

/-- Witness for C4 at concrete inputs. -/
theorem fileEmail_copy_adds_target_witness :
    jmap_file_email.file_email [("x1", true)] "e1" "z1" true =
      [jmap_file_email.Req.emailGet "e1",
       jmap_file_email.Req.emailSet "e1" (jmap_file_email.dictSet [("x1", true)] "z1" true)] ∧
    jmap_file_email.dictSet [("x1", true)] "z1" true = [("x1", true), ("z1", true)] ∧
    jmap_file_email.submittedMailboxIds (jmap_file_email.file_email [("x1", true)] "e1" "z1" true) =
      some [("x1", true), ("z1", true)] ∧
    jmap_file_email.readCount (jmap_file_email.file_email [("x1", true)] "e1" "z1" true) =
      jmap_file_email.readCount (jmap_file_email.file_email [("x1", true)] "e1" "z1" false) + 1 :=
  fileEmail_copy_adds_target [("x1", true)] "e1" "x1" "z1" (by decide)

/-- Witness for C10 at concrete inputs. -/
theorem fileEmail_copy_idempotent_witness :
    jmap_file_email.file_email [("m1", true), ("m2", true)] "e1" "m2" true =
      [jmap_file_email.Req.emailGet "e1",
       jmap_file_email.Req.emailSet "e1" [("m1", true), ("m2", true)]] ∧
    jmap_file_email.submittedMailboxIds
      (jmap_file_email.file_email [("m1", true), ("m2", true)] "e1" "m2" true) =
      some [("m1", true), ("m2", true)] :=
  fileEmail_copy_idempotent [("m1", true), ("m2", true)] "e1" "m2" (by decide) (by decide)

open jmap_file_email in
/-- C2: depth accounting of the depth-limited recursive resolver on the
chain 100_projects → A → B → C: the root is depth 0 and its children
depth 1, so searching for C returns not-found with `maxDepth` 1 and 2
and finds C with `maxDepth` 3 or `None`; A, at depth 1, is still found
with `maxDepth` 1; B (depth 2) is rejected at `maxDepth` 1 and its
descendant C is thereby excluded as well. -/
theorem find_folder_in_para_depth_accounting (r a b c nA nB nC : String)
    (har : a ≠ r) (hbr : b ≠ r) (hba : b ≠ a)
    (hA1 : nA ≠ "100_projects") (hA2 : nA ≠ "200_areas") (hA3 : nA ≠ "300_resources")
    (hB1 : nB ≠ "100_projects") (hB2 : nB ≠ "200_areas") (hB3 : nB ≠ "300_resources")
    (hC1 : nC ≠ "100_projects") (hC2 : nC ≠ "200_areas") (hC3 : nC ≠ "300_resources")
    (hAB : nA ≠ nB) (hAC : nA ≠ nC) (hBC : nB ≠ nC) :
    find_folder_in_para (chainMbs r a b c nA nB nC) nC (some 1) = .notFound ∧
    find_folder_in_para (chainMbs r a b c nA nB nC) nC (some 2) = .notFound ∧
    find_folder_in_para (chainMbs r a b c nA nB nC) nC (some 3) =
      .found ⟨{ id := c, name := nC, parentId := some b }, "100_projects", r⟩ ∧
    find_folder_in_para (chainMbs r a b c nA nB nC) nC none =
      .found ⟨{ id := c, name := nC, parentId := some b }, "100_projects", r⟩ ∧
    find_folder_in_para (chainMbs r a b c nA nB nC) nA (some 1) =
      .found ⟨{ id := a, name := nA, parentId := some r }, "100_projects", r⟩ ∧
    find_folder_in_para (chainMbs r a b c nA nB nC) nB (some 1) = .notFound := by
  refine ⟨?_, ?_, ?_, ?_, ?_, ?_⟩ <;>
  simp [chainMbs, find_folder_in_para, find_para_parents, paraStep, search_descendants,
    depthExceeded, List.foldr, har, hbr, hba, Ne.symm har, Ne.symm hbr, Ne.symm hba,
    hA1, hA2, hA3, hB1, hB2, hB3, hC1, hC2, hC3, hAB, hAC, hBC,
    Ne.symm hA1, Ne.symm hA2, Ne.symm hA3, Ne.symm hB1, Ne.symm hB2, Ne.symm hB3,
    Ne.symm hC1, Ne.symm hC2, Ne.symm hC3, Ne.symm hAB, Ne.symm hAC, Ne.symm hBC]

/-- Witness for C2 at concrete ids and names. -/
theorem find_folder_in_para_depth_accounting_witness :
    jmap_file_email.find_folder_in_para (chainMbs "r" "a" "b" "c" "A" "B" "C") "C" (some 1) =
      .notFound ∧
    jmap_file_email.find_folder_in_para (chainMbs "r" "a" "b" "c" "A" "B" "C") "C" (some 2) =
      .notFound ∧
    jmap_file_email.find_folder_in_para (chainMbs "r" "a" "b" "c" "A" "B" "C") "C" (some 3) =
      .found ⟨{ id := "c", name := "C", parentId := some "b" }, "100_projects", "r"⟩ ∧
    jmap_file_email.find_folder_in_para (chainMbs "r" "a" "b" "c" "A" "B" "C") "C" none =
      .found ⟨{ id := "c", name := "C", parentId := some "b" }, "100_projects", "r"⟩ ∧
    jmap_file_email.find_folder_in_para (chainMbs "r" "a" "b" "c" "A" "B" "C") "A" (some 1) =
      .found ⟨{ id := "a", name := "A", parentId := some "r" }, "100_projects", "r"⟩ ∧
    jmap_file_email.find_folder_in_para (chainMbs "r" "a" "b" "c" "A" "B" "C") "B" (some 1) =
      .notFound :=
  find_folder_in_para_depth_accounting "r" "a" "b" "c" "A" "B" "C"
    (by decide) (by decide) (by decide) (by decide) (by decide) (by decide)
    (by decide) (by decide) (by decide) (by decide) (by decide) (by decide)
    (by decide) (by decide) (by decide)

open jmap_file_email in
/-- C5: traversal order of the depth-limited recursive resolver: although
a 200_areas match sits earlier in the flat list, the 100_projects root
is explored first; among two same-named children of 100_projects the one
earlier in the list wins for every assignment of `sortOrder` values
(display order is ignored), and the search stops at that first match. -/
theorem find_folder_in_para_traversal_order (r1 r2 a1 a2 c2 T : String) (s1 s2 : Int)
    (hr : r2 ≠ r1)
    (hT1 : T ≠ "100_projects") (hT2 : T ≠ "200_areas") (hT3 : T ≠ "300_resources") :
    find_folder_in_para
      [{ id := r2, name := "200_areas" },
       { id := c2, name := T, parentId := some r2 },
       { id := r1, name := "100_projects" },
       { id := a1, name := T, parentId := some r1, sortOrder := s1 },
       { id := a2, name := T, parentId := some r1, sortOrder := s2 }] T none =
      .found ⟨{ id := a1, name := T, parentId := some r1, sortOrder := s1 },
        "100_projects", r1⟩ := by
  simp [find_folder_in_para, find_para_parents, paraStep, search_descendants,
    depthExceeded, List.foldr, hr, Ne.symm hr, hT1, hT2, hT3,
    Ne.symm hT1, Ne.symm hT2, Ne.symm hT3]

/-- Witness for C5 at concrete inputs, with the list-earlier sibling
carrying the larger `sortOrder`. -/
theorem find_folder_in_para_traversal_order_witness :
    jmap_file_email.find_folder_in_para
      [{ id := "r2", name := "200_areas" },
       { id := "c2", name := "T", parentId := some "r2" },
       { id := "r1", name := "100_projects" },
       { id := "a1", name := "T", parentId := some "r1", sortOrder := 9 },
       { id := "a2", name := "T", parentId := some "r1", sortOrder := 0 }] "T" none =
      .found ⟨{ id := "a1", name := "T", parentId := some "r1", sortOrder := 9 },
        "100_projects", "r1"⟩ :=
  find_folder_in_para_traversal_order "r1" "r2" "a1" "a2" "c2" "T" 9 0
    (by decide) (by decide) (by decide) (by decide)

/-- On `cyclicMbs` the recursive search starting from either node of the
cycle exhausts any amount of fuel: no recursion depth suffices. -/
lemma cyclic_search_no_fuel :
    ∀ (fuel d : Nat) (pid : String), pid = "r" ∨ pid = "c" →
      jmap_file_email.search_descendants cyclicMbs "Y" none "100_projects" "r"
        fuel pid d = .outOfFuel := by
  intro fuel
  induction fuel with
  | zero => intro d pid _; rfl
  | succ n ih =>
    intro d pid hpid
    have ihr := ih (d + 1) "r" (Or.inl rfl)
    have ihc := ih (d + 1) "c" (Or.inr rfl)
    simp only [cyclicMbs] at ihr ihc ⊢
    rcases hpid with h | h <;> subst h <;>
      simp [jmap_file_email.search_descendants,
        jmap_file_email.depthExceeded, List.foldr, ihr, ihc]

/-- C7 (code bug): the unbounded (`max_depth=None`) recursive resolver
does NOT terminate on a cyclic `parentId` chain: for every fuel bound
the fuel-indexed model of `search_descendants` is still recursing, so
the Python source recurses forever (stack overflow); the spec requires
that corrupted cyclic input MUST NOT hang, and itself notes the source
lacks the cycle guard. -/
theorem searchDescendants_cyclic_diverges :
    (∀ fuel d : Nat,
      jmap_file_email.search_descendants cyclicMbs "Y" none "100_projects" "r"
        fuel "r" d = .outOfFuel) ∧
    jmap_file_email.find_folder_in_para cyclicMbs "Y" none = .outOfFuel :=
  ⟨fun fuel d => cyclic_search_no_fuel fuel d "r" (Or.inl rfl), by decide⟩

open jmap_archive_folder in
/-- C3: the bounded-depth (archive) search over a 100_projects root with
a child and a grandchild returns the immediate child for its exact name,
annotated with `paraParent = "100_projects"` and the root's id as
`paraParentId`, while the grandchild's name is not found: only immediate
children of the PARA roots are scanned. -/
theorem archive_find_immediate_children_only (r ch g nCh nG : String)
    (hchr : ch ≠ r)
    (hCh1 : nCh ≠ "100_projects") (hCh2 : nCh ≠ "200_areas") (hCh3 : nCh ≠ "300_resources")
    (hG1 : nG ≠ "100_projects") (hG2 : nG ≠ "200_areas") (hG3 : nG ≠ "300_resources")
    (hGCh : nG ≠ nCh) :
    find_folder_in_para
      [{ id := r, name := "100_projects" },
       { id := ch, name := nCh, parentId := some r },
       { id := g, name := nG, parentId := some ch }] nCh =
      some ⟨{ id := ch, name := nCh, parentId := some r }, "100_projects", r⟩ ∧
    find_folder_in_para
      [{ id := r, name := "100_projects" },
       { id := ch, name := nCh, parentId := some r },
       { id := g, name := nG, parentId := some ch }] nG = none := by
  constructor <;>
    simp [jmap_archive_folder.find_folder_in_para, find_para_parents, paraStep,
      List.find?, hchr, Ne.symm hchr, hCh1, hCh2, hCh3, hG1, hG2, hG3, hGCh,
      Ne.symm hCh1, Ne.symm hCh2, Ne.symm hCh3, Ne.symm hG1, Ne.symm hG2,
      Ne.symm hG3, Ne.symm hGCh]

/-- Witness for C3 at concrete ids and names. -/
theorem archive_find_immediate_children_only_witness :
    jmap_archive_folder.find_folder_in_para
      [{ id := "r", name := "100_projects" },
       { id := "ch", name := "proj1", parentId := some "r" },
       { id := "g", name := "sub1", parentId := some "ch" }] "proj1" =
      some ⟨{ id := "ch", name := "proj1", parentId := some "r" }, "100_projects", "r"⟩ ∧
    jmap_archive_folder.find_folder_in_para
      [{ id := "r", name := "100_projects" },
       { id := "ch", name := "proj1", parentId := some "r" },
       { id := "g", name := "sub1", parentId := some "ch" }] "sub1" = none :=
  archive_find_immediate_children_only "r" "ch" "g" "proj1" "sub1"
    (by decide) (by decide) (by decide) (by decide) (by decide) (by decide)
    (by decide) (by decide)

/-- C6 (counterexample): on a response whose `updated` set contains the
folder id while `not_updated` holds an entry for a different id, the
claim's three-way reading reports success but `move_folder_to_archive`
checks `not_updated` first and signals a move failure whose detail is
the empty default, since `not_updated` has no entry for this folder. -/
theorem move_folder_counterexample :
    jmap_archive_folder.move_outcome_per_claim ⟨some ["f1"], some [("g1", "err")]⟩ "f1" =
      .success ∧
    jmap_archive_folder.move_folder_to_archive ⟨some ["f1"], some [("g1", "err")]⟩ "f1" =
      .moveFailure none := by
  constructor <;> decide

open jmap_archive_folder in
/-- C6 (amended): `move_folder_to_archive` interprets the response in
exactly three ways, with the `not_updated` check first: any non-empty
`not_updated` signals a move failure carrying `not_updated.get(folderId)`
(empty default included); otherwise membership of the folder id in
`updated` decides success; any other shape is the unexpected-response
failure — success is never reported otherwise. -/
theorem move_folder_outcome_characterization (resp : SetUpdateResponse) (folderId : String) :
    (move_folder_to_archive resp folderId = .success ↔
      truthyList resp.not_updated = false ∧ folderId ∈ resp.updated.getD []) ∧
    (∀ d, move_folder_to_archive resp folderId = .moveFailure d ↔
      truthyList resp.not_updated = true ∧
        d = lookupStr (resp.not_updated.getD []) folderId) ∧
    (move_folder_to_archive resp folderId = .unexpected ↔
      truthyList resp.not_updated = false ∧ ¬folderId ∈ resp.updated.getD []) := by
  unfold move_folder_to_archive
  by_cases h1 : truthyList resp.not_updated = true
  · simp [h1, eq_comm]
  · have h1f : truthyList resp.not_updated = false := by simpa using h1
    by_cases h2 : truthyList resp.updated = true
    · by_cases h3 : folderId ∈ resp.updated.getD [] <;> simp [h1f, h2, h3]
    · have h2f : truthyList resp.updated = false := by simpa using h2
      have h3 : ¬folderId ∈ resp.updated.getD [] := by
        cases hu : resp.updated with
        | none => simp
        | some l =>
          rw [hu] at h2f
          simp only [truthyList, Bool.not_eq_true'] at h2f
          simp [List.isEmpty_iff.mp (by simpa using h2f)]
      simp [h1f, h2f, h3]

/-- The discovery fold, projected to one PARA slot, keeps the last match
in list order (and falls back to the accumulator's slot). -/
lemma foldl_paraStep_proj (n : String) (proj : ParaParents → Option String)
    (hproj : ∀ acc mb, proj (paraStep acc mb) =
      if mb.name = n then some mb.id else proj acc) :
    ∀ (mbs : List Mailbox) (acc : ParaParents),
      proj (mbs.foldl paraStep acc) = (lastIdNamed mbs n).or (proj acc) := by
  intro mbs
  induction mbs with
  | nil => intro acc; simp [lastIdNamed, Option.none_or]
  | cons mb rest ih =>
    intro acc
    rw [List.foldl_cons, ih, hproj]
    cases hf : rest.reverse.find? (fun mb => decide (mb.name = n)) with
    | some x =>
      simp [lastIdNamed, hf, List.reverse_cons, List.find?_append, Option.or]
    | none =>
      by_cases hc : mb.name = n <;>
        simp [lastIdNamed, hf, hc, List.reverse_cons, List.find?_append,
          List.find?, Option.or]

lemma paraStep_projects (acc : ParaParents) (mb : Mailbox) :
    (paraStep acc mb).projects =
      if mb.name = "100_projects" then some mb.id else acc.projects := by
  unfold paraStep
  split_ifs <;> simp_all

lemma paraStep_areas (acc : ParaParents) (mb : Mailbox) :
    (paraStep acc mb).areas =
      if mb.name = "200_areas" then some mb.id else acc.areas := by
  unfold paraStep
  split_ifs <;> simp_all

lemma paraStep_resources (acc : ParaParents) (mb : Mailbox) :
    (paraStep acc mb).resources =
      if mb.name = "300_resources" then some mb.id else acc.resources := by
  unfold paraStep
  split_ifs <;> simp_all

/-- C8 (amended): when several folders share a name, `get_mailbox_by_name`
returns the first match in list order (case-insensitively): it equals
`List.find?` of the lowercased-name test; PARA-root discovery, by
contrast, keeps the LAST case-sensitive match in list order for each of
the three fixed root names, because the dict assignment in the discovery
loop overwrites earlier matches. -/
theorem name_resolution_tie_break :
    (∀ (mbs : List Mailbox) (n : String),
      jmap_common.get_mailbox_by_name mbs n =
        mbs.find? (fun mb => decide (mb.name.toLower = n.toLower))) ∧
    (∀ mbs : List Mailbox,
      (find_para_parents mbs).projects = lastIdNamed mbs "100_projects" ∧
      (find_para_parents mbs).areas = lastIdNamed mbs "200_areas" ∧
      (find_para_parents mbs).resources = lastIdNamed mbs "300_resources") := by
  constructor
  · intro mbs n
    induction mbs with
    | nil => rfl
    | cons mb rest ih =>
      by_cases h : mb.name.toLower = n.toLower
      · rw [jmap_common.get_mailbox_by_name, if_pos h,
          List.find?_cons_of_pos _ (by simp [h])]
      · rw [jmap_common.get_mailbox_by_name, if_neg h,
          List.find?_cons_of_neg _ (by simp [h]), ih]
  · intro mbs
    unfold find_para_parents
    refine ⟨?_, ?_, ?_⟩
    · rw [foldl_paraStep_proj "100_projects" ParaParents.projects paraStep_projects]
      simp [Option.or_none]
    · rw [foldl_paraStep_proj "200_areas" ParaParents.areas paraStep_areas]
      simp [Option.or_none]
    · rw [foldl_paraStep_proj "300_resources" ParaParents.resources paraStep_resources]
      simp [Option.or_none]

/-- C8 (counterexample): with two folders both named 100_projects, the
discovery loop keeps the second id r2, while the claim's
first-match-in-list-order reading yields r1. -/
theorem para_root_discovery_counterexample :
    find_para_parents
      [{ id := "r1", name := "100_projects" }, { id := "r2", name := "100_projects" }] =
      ⟨some "r2", none, none⟩ ∧
    find_para_parents_first_match
      [{ id := "r1", name := "100_projects" }, { id := "r2", name := "100_projects" }] =
      ⟨some "r1", none, none⟩ ∧
    ("r2" : String) ≠ "r1" := by
  refine ⟨?_, ?_, ?_⟩ <;> decide

/-- Appending a folder to a list with no case-insensitive name match
makes `get_mailbox_by_name` fall through to the appended folder. -/
lemma get_mailbox_by_name_append (mbs : List Mailbox) (x : Mailbox) (n : String)
    (h : ∀ mb ∈ mbs, mb.name.toLower ≠ n.toLower) :
    jmap_common.get_mailbox_by_name (mbs ++ [x]) n =
      jmap_common.get_mailbox_by_name [x] n := by
  induction mbs with
  | nil => rfl
  | cons mb rest ih =>
    rw [List.cons_append, jmap_common.get_mailbox_by_name,
      if_neg (h mb (List.mem_cons_self _ _))]
    exact ih (fun q hq => h q (List.mem_cons_of_mem _ hq))

open jmap_create_folder in
/-- C9: on a success response (empty/absent `not_created`, a created
record under the `new-folder` key carrying the assigned id),
`create_folder(parentId=P, name=N)` returns `{id, name := N,
parentId := P}`; and once the server's folder list reflects the creation,
`get_mailbox_by_name N` — with no pre-existing case-insensitive name
collision — returns exactly the new folder, whose `parentId` is `P`. -/
theorem create_then_get_round_trip (mbs : List Mailbox) (P N newId : String)
    (resp : SetCreateResponse)
    (hno : truthyList resp.not_created = false)
    (hcreated : lookupStr (resp.created.getD []) "new-folder" = some newId)
    (hclash : ∀ mb ∈ mbs, mb.name.toLower ≠ N.toLower) :
    create_folder resp P N = .ok newId N P ∧
    jmap_common.get_mailbox_by_name (serverApplyCreate mbs newId N P) N =
      some { id := newId, name := N, parentId := some P } := by
  have htr : truthyList resp.created = true := by
    cases hc : resp.created with
    | none => rw [hc] at hcreated; simp [lookupStr] at hcreated
    | some l =>
      cases l with
      | nil => rw [hc] at hcreated; simp [lookupStr] at hcreated
      | cons p rest => simp [truthyList]
  constructor
  · simp [create_folder, hno, htr, hcreated]
  · unfold serverApplyCreate
    rw [get_mailbox_by_name_append mbs _ N hclash]
    simp [jmap_common.get_mailbox_by_name]

/-- Witness for C9 at concrete inputs. -/
theorem create_then_get_round_trip_witness :
    jmap_create_folder.create_folder ⟨some [("new-folder", "x1")], none⟩ "p1" "n1" =
      .ok "x1" "n1" "p1" ∧
    jmap_common.get_mailbox_by_name
      (jmap_create_folder.serverApplyCreate [] "x1" "n1" "p1") "n1" =
      some { id := "x1", name := "n1", parentId := some "p1" } :=
  create_then_get_round_trip [] "p1" "n1" "x1" ⟨some [("new-folder", "x1")], none⟩
    rfl (by decide) (by simp)
